import Mathlib

/-!
# Verification of `expert_intelligence_toolbox/geographic.py`

A shallow embedding of the geocoding and geographic-boundary utilities of the
repository, together with theorems settling the specification claims.

Modelling conventions:
* External services (the Overpass boundary API, the Nominatim geocoder) and
  user-supplied data files are parameters of the embedded functions: a run is a
  pure function of the service responses and file contents.
* Fallible operations return `Except String`; an uncaught Python exception is an
  `.error`.
* Pandas frames become lists of rows; `NaN` fields produced by a left merge
  become `Option` values.
* Side effects (network queries, file reads/writes, prints, sleeps) are recorded
  in an explicit trace of `Effect` values, in program order.
* Coordinates are rationals (`Rat`); the idealised geometry (convex hulls) lives
  in `Set (ℝ × ℝ)`.
-/

namespace Geographic

/-- One observable side effect of a run, in program order. -/
inductive Effect where
  | overpassQuery (query : String)
  | readFile (path : String)
  | readCsv (path : String)
  | openInput (path : String)
  | openOutput (path : String) (mode : String)
  | geocode (query : String)
  | reverseGeocode (query : String)
  | sleep
  | printMsg (msg : String)
  | printFrame
  | spatialJoin
deriving DecidableEq, Repr

/-- One record of an Overpass response (`r.toJSON()['elements']`): its `type`
field, whether a `tags` key is present, its `id`, and its coordinates. -/
structure Element where
  typ : String
  hasTags : Bool
  id : Nat
  lon : Rat
  lat : Rat
deriving DecidableEq, Repr

/-! ## Geohash encoding

`geolib.geohash.encode(lat, lon, precision)`: standard geohash, interleaving
longitude/latitude bisection bits (longitude first) and emitting 5 bits per
base-32 character. -/

/-- The geohash base-32 alphabet. -/
def geohashAlphabet : List Char := "0123456789bcdefghjkmnpqrstuvwxyz".toList

/-- Bisection bits of the geohash of `(lat, lon)`: `n` bits, alternating
longitude (when `evenBit` is true) and latitude refinement. -/
def geohashBits (lat lon : Rat) : Nat → Rat → Rat → Rat → Rat → Bool → List Bool
  | 0, _, _, _, _, _ => []
  | n + 1, latLo, latHi, lonLo, lonHi, evenBit =>
    if evenBit then
      let mid := (lonLo + lonHi) / 2
      if mid ≤ lon then true :: geohashBits lat lon n latLo latHi mid lonHi false
      else false :: geohashBits lat lon n latLo latHi lonLo mid false
    else
      let mid := (latLo + latHi) / 2
      if mid ≤ lat then true :: geohashBits lat lon n mid latHi lonLo lonHi true
      else false :: geohashBits lat lon n latLo mid lonLo lonHi true

/-- Value of a (5-bit) chunk of bits, most significant first. -/
def bitsVal (bs : List Bool) : Nat :=
  bs.foldl (fun a b => 2 * a + (if b then 1 else 0)) 0

/-- Split a bit stream into `p` base-32 digits of 5 bits each. -/
def geohashChunks : Nat → List Bool → List Nat
  | 0, _ => []
  | p + 1, bits => bitsVal (bits.take 5) :: geohashChunks p (bits.drop 5)

/-- `geolib.geohash.encode(lat, lon, precision)`. -/
def geohashEncode (lat lon : Rat) (precision : Nat) : String :=
  String.mk ((geohashChunks precision
    (geohashBits lat lon (5 * precision) (-90) 90 (-180) 180 true)).map
      (fun n => geohashAlphabet.getD n '?'))

/-- The hash column of the boundary pipeline:
`geolib.geohash.encode(r["lon"], r["lat"], 3)` — the code passes the row's
longitude as the first argument and the latitude as the second. -/
def nodeGeohash (e : Element) : String := geohashEncode e.lon e.lat 3

theorem geohashChunks_length (bits : List Bool) (p : Nat) :
    (geohashChunks p bits).length = p := by
  induction p generalizing bits with
  | zero => rfl
  | succ p ih => simp [geohashChunks, ih]

theorem geohashEncode_length (lat lon : Rat) (p : Nat) :
    (geohashEncode lat lon p).length = p := by
  simp [geohashEncode, String.length, geohashChunks_length]

/-! ## The clustering pipeline shared by the boundary / UK-geography functions

`filtered = [i for i in elements if 'tags' not in i.keys()]`, then
`coordinates_df[coordinates_df['type'] == 'node']`, then a geohash column,
then `dissolve(by="geohash", aggfunc={"type": "first", "id": "count"})` and
`convex_hull` per dissolved group. -/

/-- Records of the response without a `tags` key. -/
def untaggedElements (elements : List Element) : List Element :=
  elements.filter (fun e => e.hasTags = false)

/-- `coordinates_df[coordinates_df['type'] == 'node']`.  On the frame built
from an empty record list the column `'type'` does not exist and the selection
raises a `KeyError`. -/
def selectNodes (filtered : List Element) : Except String (List Element) :=
  if filtered.isEmpty then .error "KeyError: type"
  else .ok (filtered.filter (fun e => e.typ = "node"))

/-- The node rows the pipeline clusters, as a pure function of the response. -/
def boundaryNodes (elements : List Element) : List Element :=
  (untaggedElements elements).filter (fun e => e.typ = "node")

/-- Keep the first occurrence of each value (`pandas.drop_duplicates`). -/
def dropDupAux [DecidableEq α] : List α → List α → List α
  | _, [] => []
  | seen, a :: l =>
    if a ∈ seen then dropDupAux seen l else a :: dropDupAux (a :: seen) l

/-- `pandas.drop_duplicates`: first occurrences, in order. -/
def dropDuplicates [DecidableEq α] (l : List α) : List α := dropDupAux [] l

theorem mem_dropDupAux [DecidableEq α] (a : α) (seen l : List α) :
    a ∈ dropDupAux seen l ↔ a ∈ l ∧ a ∉ seen := by
  induction l generalizing seen with
  | nil => simp [dropDupAux]
  | cons b l ih =>
    simp only [dropDupAux]
    by_cases hb : b ∈ seen
    · rw [if_pos hb, ih]
      simp only [List.mem_cons]
      constructor
      · rintro ⟨hl, hs⟩; exact ⟨Or.inr hl, hs⟩
      · rintro ⟨hl | hl, hs⟩
        · exact absurd (hl ▸ hb) hs
        · exact ⟨hl, hs⟩
    · rw [if_neg hb, List.mem_cons, ih]
      simp only [List.mem_cons, not_or]
      by_cases hab : a = b
      · subst hab; simp [hb]
      · simp [hab]

theorem mem_dropDuplicates [DecidableEq α] (a : α) (l : List α) :
    a ∈ dropDuplicates l ↔ a ∈ l := by
  simp [dropDuplicates, mem_dropDupAux]

/-- The sorted unique geohash keys of the nodes (`groupby` sorts its keys). -/
def geohashKeys (nodes : List Element) : List String :=
  List.insertionSort (fun a b => a ≤ b) (dropDuplicates (nodes.map nodeGeohash))

theorem mem_geohashKeys (k : String) (nodes : List Element) :
    k ∈ geohashKeys nodes ↔ k ∈ nodes.map nodeGeohash := by
  rw [geohashKeys, (List.perm_insertionSort _ _).mem_iff, mem_dropDuplicates]

/-- One row of the dissolved frame: the geohash group key, the aggregated
`type` (`"first"`) and `id` (`"count"`) columns, and the member points whose
convex hull is the row's geometry. -/
structure PolyRow where
  geohash : String
  typ : String
  idCount : Nat
  points : List Element
deriving DecidableEq, Repr

/-- The dissolved row of one geohash group. -/
def mkPolyRow (nodes : List Element) (k : String) : PolyRow :=
  let g := nodes.filter (fun e => nodeGeohash e = k)
  { geohash := k
    typ := ((g.head?).map Element.typ).getD ""
    idCount := g.length
    points := g }

/-- `gdf.dissolve(by="geohash", aggfunc={"type": "first", "id": "count"})`
followed by `polygons["geometry"] = polygons["geometry"].convex_hull`:
one row per geohash key; the geometry of a row is the convex hull of its
group, see `polyGeometry`. -/
def dissolveGroups (nodes : List Element) : List PolyRow :=
  (geohashKeys nodes).map (mkPolyRow nodes)

/-- The points of a group of records, as a subset of the real plane. -/
def groupPointSet (es : List Element) : Set (ℝ × ℝ) :=
  { x | ∃ e ∈ es, x = ((e.lon : ℝ), (e.lat : ℝ)) }

/-- The geometry of a dissolved row after `convex_hull`. -/
def polyGeometry (p : PolyRow) : Set (ℝ × ℝ) :=
  convexHull ℝ (groupPointSet p.points)

/-! ## `convert_string_to_boundary` -/

/-- The templated Overpass query of `convert_string_to_boundary`. -/
def boundaryQuery (country location : String) : String :=
  "\n    area[name=\"" ++ country ++ "\"];\n    (\n    relation[\"type\"=\"boundary\"][\"name\"=\"" ++
    location ++ "\"](area);\n    );\n    (._;>;);\n    out body;\n    "

/-- The value returned by `convert_string_to_boundary`: the dissolved polygon
frame, or the node coordinate frame when `return_geometry` is false. -/
inductive BoundaryReturn where
  | polygons (ps : List PolyRow)
  | coordinates (cs : List Element)
deriving DecidableEq, Repr

/-- `convert_string_to_boundary`, as a function of the Overpass service. -/
def convert_string_to_boundary (overpass : String → Except String (List Element))
    (country location : String) (return_geometry : Bool) :
    Except String BoundaryReturn :=
  match overpass (boundaryQuery country location) with
  | .error e => .error e
  | .ok elements =>
    match selectNodes (untaggedElements elements) with
    | .error e => .error e
    | .ok nodes =>
      if return_geometry = true then .ok (.polygons (dissolveGroups nodes))
      else .ok (.coordinates nodes)

/-! ## The UK statistical-geography functions -/

/-- One row of the LSOA-MSOA-LA lookup CSV (the six selected columns). -/
structure LookupRow where
  lsoa21cd : String
  lsoa21nm : String
  msoa21cd : String
  msoa21nm : String
  lad22cd : String
  lad22nm : String
deriving DecidableEq, Repr

/-- One row of the LSOA boundary file after column selection: an LSOA code and
its boundary geometry (a sequence of coordinates). -/
structure BoundaryRow where
  lsoa21cd : String
  geometry : List (Rat × Rat)
deriving DecidableEq, Repr

/-- One row of `lsoa_boundary_file.merge(lookup, on='LSOA21CD', how='left')`:
the lookup columns are `none` (NaN) when no lookup row matched. -/
structure MergedRow where
  lsoa21cd : String
  geometry : List (Rat × Rat)
  lsoa21nm : Option String
  msoa21cd : Option String
  msoa21nm : Option String
  lad22cd : Option String
  lad22nm : Option String
deriving DecidableEq, Repr

/-- Pandas left merge on `LSOA21CD`: every boundary row is kept, duplicated
once per matching lookup row, with NaN lookup columns when nothing matches. -/
def leftMerge (bs : List BoundaryRow) (lk : List LookupRow) : List MergedRow :=
  (bs.map (fun b =>
    match lk.filter (fun l => l.lsoa21cd = b.lsoa21cd) with
    | [] => [{ lsoa21cd := b.lsoa21cd, geometry := b.geometry, lsoa21nm := none,
               msoa21cd := none, msoa21nm := none, lad22cd := none, lad22nm := none }]
    | m :: ms => (m :: ms).map (fun l =>
        { lsoa21cd := b.lsoa21cd, geometry := b.geometry, lsoa21nm := some l.lsoa21nm,
          msoa21cd := some l.msoa21cd, msoa21nm := some l.msoa21nm,
          lad22cd := some l.lad22cd, lad22nm := some l.lad22nm }))).flatten

/-- One row of `gpd.sjoin(lsoa_boundary_file, polygons, how='inner',
predicate='intersects')`: a merged LSOA row paired with the index (the geohash
key) of an intersecting polygon. -/
structure JoinRow where
  row : MergedRow
  index_right : String
deriving DecidableEq, Repr

/-- Inner spatial join: each merged LSOA row paired with every dissolved
polygon whose geometry intersects it.  The `intersects` predicate of the
geometry library is supplied by the environment. -/
def sjoin (ms : List MergedRow) (polys : List PolyRow)
    (intersects : List (Rat × Rat) → List Element → Bool) : List JoinRow :=
  (ms.map (fun m =>
    (polys.filter (fun p => intersects m.geometry p.points)).map
      (fun p => ({ row := m, index_right := p.geohash } : JoinRow)))).flatten

/-- `join_result[['LSOA21CD', 'LSOA21NM']].drop_duplicates()`. -/
def uniqueLsoaPairs (jr : List JoinRow) : List (String × Option String) :=
  dropDuplicates (jr.map (fun r => (r.row.lsoa21cd, r.row.lsoa21nm)))

/-- `join_result[['MSOA21CD', 'MSOA21NM']].drop_duplicates()`. -/
def uniqueMsoaPairs (jr : List JoinRow) : List (Option String × Option String) :=
  dropDuplicates (jr.map (fun r => (r.row.msoa21cd, r.row.msoa21nm)))

/-- `join_result[['LAD22CD', 'LAD22NM']].drop_duplicates()`. -/
def uniqueLaPairs (jr : List JoinRow) : List (Option String × Option String) :=
  dropDuplicates (jr.map (fun r => (r.row.lad22cd, r.row.lad22nm)))

/-- The external inputs of the UK-geography functions: the Overpass service,
the two locally downloaded files, and the geometry library's `intersects`
predicate (between an LSOA boundary geometry and a clustered group). -/
structure UkGeogEnv where
  overpass : String → Except String (List Element)
  boundaryRows : List BoundaryRow
  lookupRows : List LookupRow
  intersects : List (Rat × Rat) → List Element → Bool

/-- The templated Overpass query of `convert_string_to_uk_geog`. -/
def ukStringQuery (location : String) : String :=
  "\n    area[name=\"United Kingdom\"];\n    (\n    relation[\"type\"=\"boundary\"][\"name\"=\"" ++
    location ++ "\"](area);\n    );\n    (._;>;);\n    out body;\n    "

/-- The templated Overpass query of `convert_list_to_uk_geog` (the loop body
indents the template by eight spaces). -/
def ukListQuery (location : String) : String :=
  "\n        area[name=\"United Kingdom\"];\n        (\n        relation[\"type\"=\"boundary\"][\"name\"=\"" ++
    location ++ "\"](area);\n        );\n        (._;>;);\n        out body;\n        "

/-- The value returned by `convert_string_to_uk_geog`.  There is no overview
constructor: the `'overview'` branch of the source builds `output_df` but has
no return statement, so no overview frame is ever returned. -/
inductive UkGeogReturn where
  | lsoaDf (rows : List (String × Option String))
  | msoaDf (rows : List (Option String × Option String))
  | laDf (rows : List (Option String × Option String))
  | rawDf (rows : List JoinRow)
deriving DecidableEq, Repr

/-- The final `if/elif` dispatch of `convert_string_to_uk_geog` (lines
163-172).  The `'overview'` branch assigns `output_df` and then falls off the
end of the function, so the function returns `None` for it; any unrecognized
option also falls through to `None`. -/
def stringUkDispatch (uL : List (String × Option String))
    (uM uA : List (Option String × Option String)) (jr : List JoinRow)
    (output_geog : String) : Option UkGeogReturn :=
  if output_geog = "lsoa" then some (.lsoaDf uL)
  else if output_geog = "msoa" then some (.msoaDf uM)
  else if output_geog = "la" then some (.laDf uA)
  else if output_geog = "overview" then none
  else if output_geog = "raw" then some (.rawDf jr)
  else none

/-- `convert_string_to_uk_geog`: Overpass query, clustering, file reads, left
merge, spatial join, unique code/name frames, final dispatch.  Returns the
effect trace together with the returned value (`.error` for an uncaught
exception). -/
def convert_string_to_uk_geog (env : UkGeogEnv)
    (location lsoa_boundary_files_path lsoa_msoa_la_lookup_path output_geog : String) :
    List Effect × Except String (Option UkGeogReturn) :=
  match env.overpass (ukStringQuery location) with
  | .error e => ([.overpassQuery (ukStringQuery location)], .error e)
  | .ok elements =>
    match selectNodes (untaggedElements elements) with
    | .error e => ([.overpassQuery (ukStringQuery location)], .error e)
    | .ok nodes =>
      let polys := dissolveGroups nodes
      let merged := leftMerge env.boundaryRows env.lookupRows
      let jr := sjoin merged polys env.intersects
      let uL := uniqueLsoaPairs jr
      let uM := uniqueMsoaPairs jr
      let uA := uniqueLaPairs jr
      ([.overpassQuery (ukStringQuery location),
        .printMsg "Reading in LSOA boundary file... This will take a while...",
        .readFile lsoa_boundary_files_path,
        .readCsv lsoa_msoa_la_lookup_path,
        .printMsg ("There are " ++ toString polys.length ++ " polygons in the input location."),
        .printFrame,
        .printMsg "Performing spatial join...",
        .spatialJoin],
       .ok (stringUkDispatch uL uM uA jr output_geog))

/-! ## `convert_list_to_uk_geog` -/

/-- One row of the per-location overview frame: the LA pair merged (left, on
`input_location`) with the MSOA pairs and then with the LSOA pairs. -/
structure OverviewRow where
  input_location : String
  la : Option String × Option String
  msoa : Option (Option String × Option String)
  lsoa : Option (String × Option String)
deriving DecidableEq, Repr

/-- `pd.merge(xs, ys, on='input_location', how='left')`: every left row kept,
duplicated per matching right row, `none` when nothing matches. -/
def leftMergeOnLoc (xs : List (String × α)) (ys : List (String × β)) :
    List (String × α × Option β) :=
  (xs.map (fun x =>
    match ys.filter (fun y => y.1 = x.1) with
    | [] => [(x.1, x.2, none)]
    | m :: ms => (m :: ms).map (fun y => (x.1, x.2, some y.2)))).flatten

/-- Lines 293-304: the overview frame of one location, built by left-merging
the LA, MSOA and LSOA unique-pair frames on `input_location`. -/
def overviewOf (uAloc uMloc : List (String × Option String × Option String))
    (uLloc : List (String × String × Option String)) : List OverviewRow :=
  (leftMergeOnLoc (leftMergeOnLoc uAloc uMloc) uLloc).map
    (fun t => { input_location := t.1, la := t.2.1.1, msoa := t.2.1.2, lsoa := t.2.2 })

/-- The running state of `convert_list_to_uk_geog`: the five accumulated
result frames and the effect trace. -/
structure ListAccs where
  lsoa : List (String × String × Option String)
  msoa : List (String × Option String × Option String)
  la : List (String × Option String × Option String)
  overview : List OverviewRow
  raw : List (String × JoinRow)
  trace : List Effect
deriving DecidableEq, Repr

/-- The message printed by the per-location `except` handler. -/
def skipMsg (location : String) : String :=
  "Error. Likely no polygons found for " ++ location

/-- The body of the per-location `try` block (lines 239-306): node selection,
clustering, merge, spatial join, unique frames, and the four accumulator
concatenations selected by `output_geog`.  Any raised exception is `.error`. -/
def listTryBody (env : UkGeogEnv) (output_geog location : String)
    (filtered : List Element) (acc : ListAccs) : Except String ListAccs :=
  match selectNodes filtered with
  | .error e => .error e
  | .ok nodes =>
    let polys := dissolveGroups nodes
    let merged := leftMerge env.boundaryRows env.lookupRows
    let jr := sjoin merged polys env.intersects
    let uLloc := (uniqueLsoaPairs jr).map (fun p => (location, p))
    let uMloc := (uniqueMsoaPairs jr).map (fun p => (location, p))
    let uAloc := (uniqueLaPairs jr).map (fun p => (location, p))
    let jrLoc := jr.map (fun r => (location, r))
    let acc := { acc with trace := acc.trace ++
      [.printMsg ("There are " ++ toString polys.length ++
         " polygons in the input location " ++ " " ++ location),
       .printFrame,
       .printMsg "Performing spatial join...",
       .spatialJoin] }
    let acc := if output_geog = "lsoa" then { acc with lsoa := acc.lsoa ++ uLloc } else acc
    let acc := if output_geog = "msoa" then { acc with msoa := acc.msoa ++ uMloc } else acc
    let acc := if output_geog = "la" then { acc with la := acc.la ++ uAloc } else acc
    let acc := if output_geog = "overview" then
        { acc with overview := acc.overview ++ overviewOf uAloc uMloc uLloc } else acc
    let acc := if output_geog = "raw" then { acc with raw := acc.raw ++ jrLoc } else acc
    .ok acc

/-- One iteration of the location loop.  The Overpass query (line 233) and the
frame construction of its response sit before the `try`, so their exceptions
propagate; everything from the node selection on is inside the `try`, whose
handler prints a message and moves on, leaving the accumulators unchanged. -/
def processLocation (env : UkGeogEnv) (output_geog : String) (acc : ListAccs)
    (location : String) : Except String ListAccs :=
  match env.overpass (ukListQuery location) with
  | .error e => .error e
  | .ok elements =>
    let acc := { acc with trace := acc.trace ++ [.overpassQuery (ukListQuery location)] }
    match listTryBody env output_geog location (untaggedElements elements) acc with
    | .ok acc2 => .ok acc2
    | .error _ => .ok { acc with trace := acc.trace ++ [.printMsg (skipMsg location)] }

/-- The location loop. -/
def convertListFold (env : UkGeogEnv) (output_geog : String) :
    ListAccs → List String → Except String ListAccs
  | acc, [] => .ok acc
  | acc, loc :: rest =>
    match processLocation env output_geog acc loc with
    | .error e => .error e
    | .ok acc2 => convertListFold env output_geog acc2 rest

/-- The initial state: empty result frames; the two files are read before the
loop. -/
def initListAccs (lsoa_boundary_files_path lsoa_msoa_la_lookup_path : String) : ListAccs :=
  { lsoa := [], msoa := [], la := [], overview := [], raw := [],
    trace := [.printMsg "Reading in LSOA boundary file... This will take a while...",
              .readFile lsoa_boundary_files_path,
              .readCsv lsoa_msoa_la_lookup_path] }

/-- The value returned by `convert_list_to_uk_geog`. -/
inductive ListUkGeogReturn where
  | lsoaDf (rows : List (String × String × Option String))
  | msoaDf (rows : List (String × Option String × Option String))
  | laDf (rows : List (String × Option String × Option String))
  | overviewDf (rows : List OverviewRow)
  | rawDf (rows : List (String × JoinRow))
deriving DecidableEq, Repr

/-- The final `if/elif` dispatch of `convert_list_to_uk_geog` (lines 312-321);
an unrecognized option falls through to `None`. -/
def listDispatch (acc : ListAccs) (output_geog : String) : Option ListUkGeogReturn :=
  if output_geog = "lsoa" then some (.lsoaDf acc.lsoa)
  else if output_geog = "msoa" then some (.msoaDf acc.msoa)
  else if output_geog = "la" then some (.laDf acc.la)
  else if output_geog = "overview" then some (.overviewDf acc.overview)
  else if output_geog = "raw" then some (.rawDf acc.raw)
  else none

/-- `convert_list_to_uk_geog`: file reads, the per-location loop, the final
dispatch.  Returns the final state and the returned value, or `.error` for an
uncaught exception. -/
def convert_list_to_uk_geog (env : UkGeogEnv) (locations_list : List String)
    (lsoa_boundary_files_path lsoa_msoa_la_lookup_path output_geog : String) :
    Except String (ListAccs × Option ListUkGeogReturn) :=
  match convertListFold env output_geog
      (initListAccs lsoa_boundary_files_path lsoa_msoa_la_lookup_path) locations_list with
  | .error e => .error e
  | .ok acc => .ok (acc, listDispatch acc output_geog)

/-! ## `convert_string_to_coordinates` and `convert_coordinates_to_address` -/

/-- `path.split(".")[-1]`: the last `'.'`-separated segment of the path, i.e.
the characters after the last dot (the whole path when it has no dot). -/
def lastDotSegment (path : String) : String :=
  String.mk ((path.data.reverse.takeWhile (fun c => c ≠ '.')).reverse)

/-- `path.split(".")[-1] in ["csv"]` — the input-path validation of both CSV
functions. -/
def extValid (path : String) : Bool := lastDotSegment path ∈ ["csv"]

/-- The message of the exception raised on a malformed input extension. -/
def extErrorMsg : String := "The path must be in .csv or format."

/-- A successful Nominatim forward-geocoding response. -/
structure GeocodeResult where
  latitude : Rat
  longitude : Rat
  address : String
deriving DecidableEq, Repr

/-- One CSV cell of the geocoding output frame: a number, a point
(`shapely.geometry.Point`), or a string. -/
inductive Cell where
  | num (q : Rat)
  | pt (x y : Rat)
  | str (s : String)
deriving DecidableEq, Repr

/-- One output row of `convert_string_to_coordinates`. -/
structure CoordOutputRow where
  location_name : String
  long : Cell
  lat : Cell
  wkt : Cell
  address_exact : Cell
deriving DecidableEq, Repr

/-- Line 358: `location = f'... , {append_str_to_input}'` — the string handed
to the geocoder is the row value, a comma and a space, then the suffix. -/
def geocodeQuery (location append_str_to_input : String) : String :=
  location ++ ", " ++ append_str_to_input

/-- The output row of a successful geocoding call (lines 363-373).  Line 368
fills the `'long'` column with `location.latitude`; the point on line 363 is
built from `(location.longitude, location.latitude)`. -/
def successOutputRow (name : String) (loc : GeocodeResult) : CoordOutputRow :=
  { location_name := name
    long := .num loc.latitude
    lat := .num loc.latitude
    wkt := .pt loc.longitude loc.latitude
    address_exact := .str loc.address }

/-- The output row of a failed geocoding call (lines 374-381): empty strings
for the coordinate columns, the exception message in `address_exact`. -/
def errorOutputRow (name msg : String) : CoordOutputRow :=
  { location_name := name, long := .str "", lat := .str "", wkt := .str "",
    address_exact := .str msg }

/-- The per-row `try/except` of `convert_string_to_coordinates`. -/
def stringToCoordRow (geocode : String → Except String GeocodeResult)
    (append name : String) : CoordOutputRow :=
  match geocode (geocodeQuery name append) with
  | .ok loc => successOutputRow name loc
  | .error e => errorOutputRow name e

/-- The serialized form of a cell (pandas `to_csv`). -/
def cellText : Cell → String
  | .num q => toString q
  | .pt x y => "POINT (" ++ toString x ++ " " ++ toString y ++ ")"
  | .str s => s

/-- The header line written with the first output row. -/
def coordHeader : String := "location_name,long,lat,wkt,address_exact"

/-- The serialized form of one output row. -/
def coordRowLine (r : CoordOutputRow) : String :=
  r.location_name ++ "," ++ cellText r.long ++ "," ++ cellText r.lat ++ "," ++
    cellText r.wkt ++ "," ++ cellText r.address_exact

/-- Append serialized rows to the current file content (`to_csv(mode='a',
header=False)` per row). -/
def appendLines (content : List String) (rows : List CoordOutputRow) : List String :=
  rows.foldl (fun c r => c ++ [coordRowLine r]) content

/-- The output-file content after the row loop (lines 383-389): the first row
is written with `mode='w+'` and a header, truncating whatever the file held;
every later row is appended without a header.  With no input rows the loop
never runs and the file is left as it was. -/
def coordOutputAfter (old : List String) (rows : List CoordOutputRow) : List String :=
  match rows with
  | [] => old
  | r0 :: rest => appendLines [coordHeader, coordRowLine r0] rest

/-- The per-row effects of the loop, from input index `i` on: geocode, print,
open the output in `'w+'` (first row) or `'a'` (later rows), sleep one second. -/
def coordRowEffects (outPath append : String) : Nat → List String → List Effect
  | _, [] => []
  | i, name :: rest =>
    .geocode (geocodeQuery name append) ::
    .printFrame ::
    .openOutput outPath (if i = 0 then "w+" else "a") ::
    .sleep ::
    coordRowEffects outPath append (i + 1) rest

/-- `convert_string_to_coordinates`, as a function of the geocoding service,
the rows of the input CSV and the pre-existing output-file content.  Returns
the effect trace, the final output-file content and the uncaught exception, if
any. -/
def convert_string_to_coordinates (geocode : String → Except String GeocodeResult)
    (inputRows : List String) (oldOutput : List String)
    (path_to_input_csv path_to_output_csv append_str_to_input : String) :
    List Effect × List String × Option String :=
  if extValid path_to_input_csv = true then
    let rows := inputRows.map (stringToCoordRow geocode append_str_to_input)
    (.readCsv path_to_input_csv ::
       (coordRowEffects path_to_output_csv append_str_to_input 0 inputRows ++
        [.printMsg "Program has finished running"]),
     coordOutputAfter oldOutput rows, none)
  else ([], oldOutput, some extErrorMsg)

/-- One row of the input CSV of `convert_coordinates_to_address` (the
`csv.DictReader` fields, all strings). -/
structure AddrInputRow where
  location : String
  lat : String
  long : String
deriving DecidableEq, Repr

/-- One row written by the `csv.DictWriter`. -/
structure AddrOutputRow where
  location : String
  lat : String
  long : String
  output_address : String
deriving DecidableEq, Repr

/-- Line 429: `coordinates = f"... , ..."` from the row's `lat` and `long`. -/
def coordPairString (row : AddrInputRow) : String := row.lat ++ ", " ++ row.long

/-- The per-row `try/except` of `convert_coordinates_to_address` (lines
430-441): on success the reverse-geocoded address, on failure `address` is the
exception message, and `str(address)` is written either way. -/
def addrRow (reverse : String → Except String String) (row : AddrInputRow) :
    AddrOutputRow :=
  { location := row.location, lat := row.lat, long := row.long,
    output_address :=
      match reverse (coordPairString row) with
      | .ok a => a
      | .error e => e }

/-- The header line the `csv.DictWriter` writes before the loop. -/
def addrHeader : String := "location,lat,long,output_address"

/-- The serialized form of one address output row. -/
def addrRowLine (r : AddrOutputRow) : String :=
  r.location ++ "," ++ r.lat ++ "," ++ r.long ++ "," ++ r.output_address

/-- `convert_coordinates_to_address`: extension check, then the output file is
opened with mode `'w'` (truncating it) and the header and one row per input
row are written. -/
def convert_coordinates_to_address (reverse : String → Except String String)
    (inputRows : List AddrInputRow) (oldOutput : List String)
    (path_to_input_csv path_to_output_csv : String) :
    List Effect × List String × Option String :=
  if extValid path_to_input_csv = true then
    ([.openInput path_to_input_csv, .openOutput path_to_output_csv "w"] ++
       inputRows.map (fun r => .reverseGeocode (coordPairString r)),
     addrHeader :: (inputRows.map (addrRow reverse)).map addrRowLine, none)
  else ([], oldOutput, some extErrorMsg)

/-! ## Derived observations of a run -/

/-- The forward-geocoding calls recorded in a trace, in order. -/
def geocodeCallsOf (es : List Effect) : List String :=
  es.filterMap (fun e => match e with | .geocode q => some q | _ => none)

/-- The output-file opens recorded in a trace, in order. -/
def openOutputsOf (es : List Effect) : List Effect :=
  es.filter (fun e => match e with | .openOutput _ _ => true | _ => false)

/-- The value a `convert_string_to_uk_geog` run hands back to its caller
(`none` both for the fall-through return and for an uncaught exception). -/
def stringRunReturn (x : List Effect × Except String (Option UkGeogReturn)) :
    Option UkGeogReturn :=
  match x.2 with | .ok r => r | .error _ => none

/-! ## Claims -/

/-- C1: the `output_geog` dispatch of `convert_string_to_uk_geog` (lines
163-172) returns the LSOA, MSOA, LA and raw frames for the corresponding
options, but the `'overview'` branch — the default, documented to return all
three code/name pairs — builds `output_df` without a return statement, so the
function returns `None` for `'overview'`: the dispatch is not total over the
five listed options, contradicting the claim and the function's docstring. -/
theorem stringUkDispatch_overview_never_returned :
    (∀ (uL : List (String × Option String)) (uM uA : List (Option String × Option String))
       (jr : List JoinRow),
      stringUkDispatch uL uM uA jr "lsoa" = some (.lsoaDf uL) ∧
      stringUkDispatch uL uM uA jr "msoa" = some (.msoaDf uM) ∧
      stringUkDispatch uL uM uA jr "la" = some (.laDf uA) ∧
      stringUkDispatch uL uM uA jr "raw" = some (.rawDf jr) ∧
      stringUkDispatch uL uM uA jr "overview" = none) ∧
    (∀ (env : UkGeogEnv) (location bp lp : String) (r : UkGeogReturn),
      (convert_string_to_uk_geog env location bp lp "overview").2 ≠ .ok (some r)) := by
  constructor
  · intro uL uM uA jr
    exact ⟨rfl, rfl, rfl, rfl, rfl⟩
  · intro env location bp lp r
    rcases hov : env.overpass (ukStringQuery location) with e | elements
    · simp [convert_string_to_uk_geog, hov]
    · rcases hsel : selectNodes (untaggedElements elements) with e | nodes
      · simp [convert_string_to_uk_geog, hov, hsel]
      · simp [convert_string_to_uk_geog, hov, hsel, stringUkDispatch]

/-- C2: for a successful forward-geocoding call, the output row of
`convert_string_to_coordinates` holds the returned latitude in `lat`, the
point built from `(longitude, latitude)` in `wkt` — but line 368 fills the
`'long'` column with `location.latitude` instead of `location.longitude`, so
the `'long'` cell does not hold the returned longitude whenever the two
coordinates differ. -/
theorem successOutputRow_long_holds_latitude :
    (∀ (name : String) (loc : GeocodeResult),
      (successOutputRow name loc).long = Cell.num loc.latitude ∧
      (successOutputRow name loc).lat = Cell.num loc.latitude ∧
      (successOutputRow name loc).wkt = Cell.pt loc.longitude loc.latitude ∧
      (successOutputRow name loc).address_exact = Cell.str loc.address) ∧
    stringToCoordRow (fun _ => .ok { latitude := 10, longitude := 20, address := "a" })
        "" "Greenwich"
      = successOutputRow "Greenwich" { latitude := 10, longitude := 20, address := "a" } ∧
    (successOutputRow "Greenwich" { latitude := 10, longitude := 20, address := "a" }).long
      ≠ Cell.num 20 :=
  ⟨fun _ _ => ⟨rfl, rfl, rfl, rfl⟩, rfl, by decide⟩

/-- C5: on an input path whose last `'.'`-separated segment is not `csv`,
both CSV functions raise at once: the effect trace is empty (no file read, no
external call, no output open) and the output file keeps its previous
content. -/
theorem bad_extension_raises_before_any_work (path : String)
    (hbad : extValid path = false) :
    ∀ (geocode : String → Except String GeocodeResult) (rows old : List String)
      (outPath append : String) (reverse : String → Except String String)
      (arows : List AddrInputRow),
      convert_string_to_coordinates geocode rows old path outPath append
        = ([], old, some extErrorMsg) ∧
      convert_coordinates_to_address reverse arows old path outPath
        = ([], old, some extErrorMsg) := by
  intro geocode rows old outPath append reverse arows
  constructor
  · simp [convert_string_to_coordinates, hbad]
  · simp [convert_coordinates_to_address, hbad]

/-- Witness for C5 at the concrete path `"input.txt"`. -/
theorem bad_extension_raises_witness :
    extValid "input.txt" = false ∧
    convert_string_to_coordinates (fun _ => .error "e") ["London"] ["old"]
        "input.txt" "out.csv" "" = ([], ["old"], some extErrorMsg) ∧
    convert_coordinates_to_address (fun _ => .error "e") [] ["old"]
        "input.txt" "out.csv" = ([], ["old"], some extErrorMsg) :=
  ⟨by decide,
   (bad_extension_raises_before_any_work "input.txt" (by decide)
      (fun _ => .error "e") ["London"] ["old"] "out.csv" "" (fun _ => .error "e") []).1,
   (bad_extension_raises_before_any_work "input.txt" (by decide)
      (fun _ => .error "e") ["London"] ["old"] "out.csv" "" (fun _ => .error "e") []).2⟩

theorem geocodeCallsOf_coordRowEffects (outPath append : String) (i : Nat)
    (rows : List String) :
    geocodeCallsOf (coordRowEffects outPath append i rows)
      = rows.map (fun r => geocodeQuery r append) := by
  induction rows generalizing i with
  | nil => rfl
  | cons r rs ih =>
    have h := ih (i + 1)
    simp only [geocodeCallsOf] at h ⊢
    simp [coordRowEffects, List.filterMap_cons, h]

/-- C9: every string handed to the geocoder by `convert_string_to_coordinates`
is the row value followed by `', '` followed by `append_str_to_input` — never
the raw row value itself — and with the default empty suffix it is the row
value with a trailing `', '`. -/
theorem geocoder_receives_appended_query
    (geocode : String → Except String GeocodeResult) (rows old : List String)
    (ip op append : String) (hext : extValid ip = true) :
    geocodeCallsOf (convert_string_to_coordinates geocode rows old ip op append).1
      = rows.map (fun r => r ++ ", " ++ append) ∧
    (∀ r : String, geocodeQuery r append = r ++ ", " ++ append) ∧
    (∀ r : String, geocodeQuery r append ≠ r) ∧
    (∀ r : String, geocodeQuery r "" = r ++ ", ") := by
  refine ⟨?_, fun _ => rfl, ?_, fun _ => by simp [geocodeQuery]⟩
  · have h := geocodeCallsOf_coordRowEffects op append 0 rows
    simp only [geocodeCallsOf] at h ⊢
    simp [convert_string_to_coordinates, hext, List.filterMap_cons,
      List.filterMap_append, h, geocodeQuery]
  · intro r h
    have hl := congrArg String.length h
    rw [geocodeQuery, String.length_append, String.length_append] at hl
    have h2 : (", " : String).length = 2 := rfl
    rw [h2] at hl
    omega

/-- Witness for C9 on a concrete run. -/
theorem geocoder_receives_appended_query_witness :
    extValid "in.csv" = true ∧
    geocodeCallsOf (convert_string_to_coordinates (fun _ => .error "e") ["London"] []
        "in.csv" "out.csv" "").1 = ["London, "] ∧
    geocodeQuery "London" "" ≠ "London" :=
  ⟨by decide,
   (geocoder_receives_appended_query (fun _ => .error "e") ["London"] []
      "in.csv" "out.csv" "" (by decide)).1,
   (geocoder_receives_appended_query (fun _ => .error "e") ["London"] []
      "in.csv" "out.csv" "" (by decide)).2.2.1 "London"⟩

theorem appendLines_eq (rows : List CoordOutputRow) (content : List String) :
    appendLines content rows = content ++ rows.map coordRowLine := by
  induction rows generalizing content with
  | nil => simp [appendLines]
  | cons r rs ih =>
    show appendLines (content ++ [coordRowLine r]) rs = _
    rw [ih]
    simp

theorem coordOutputAfter_cons (old : List String) (r : CoordOutputRow)
    (rs : List CoordOutputRow) :
    coordOutputAfter old (r :: rs) = coordHeader :: (r :: rs).map coordRowLine := by
  show appendLines [coordHeader, coordRowLine r] rs = _
  rw [appendLines_eq]
  simp

theorem openOutputsOf_coordRowEffects_pos (outPath append : String) (i : Nat)
    (rows : List String) (hi : i ≠ 0) :
    openOutputsOf (coordRowEffects outPath append i rows)
      = rows.map (fun _ => Effect.openOutput outPath "a") := by
  induction rows generalizing i with
  | nil => rfl
  | cons r rs ih =>
    have h := ih (i + 1) (by omega)
    simp only [openOutputsOf] at h ⊢
    simp [coordRowEffects, List.filter_cons, hi, h]

theorem openOutputsOf_coordRowEffects_zero (outPath append : String)
    (r : String) (rs : List String) :
    openOutputsOf (coordRowEffects outPath append 0 (r :: rs))
      = Effect.openOutput outPath "w+" :: rs.map (fun _ => Effect.openOutput outPath "a") := by
  have h := openOutputsOf_coordRowEffects_pos outPath append 1 rs (by omega)
  simp only [openOutputsOf] at h ⊢
  simp [coordRowEffects, List.filter_cons, h]

theorem coord_output_content (geocode : String → Except String GeocodeResult)
    (r0 : String) (rest old : List String) (ip op append : String)
    (hext : extValid ip = true) :
    (convert_string_to_coordinates geocode (r0 :: rest) old ip op append).2.1
      = coordHeader ::
          (r0 :: rest).map (fun n => coordRowLine (stringToCoordRow geocode append n)) := by
  simp [convert_string_to_coordinates, hext, coordOutputAfter_cons]

/-- C7: the claim is false for a run over zero input rows: the loop never
runs, so the output file is never opened and keeps its stale content instead
of containing exactly one header line (an input CSV holding only the
`LOCATIONS` header is a legal input). -/
theorem coord_csv_zero_rows_keeps_stale_content :
    (convert_string_to_coordinates (fun _ => .error "e") [] ["stale"]
        "in.csv" "out.csv" "").2.1 = ["stale"] ∧
    (["stale"] : List String) ≠ [coordHeader] :=
  ⟨rfl, by decide⟩

/-- C7 (amended): for every run over at least one input row,
`convert_string_to_coordinates` writes the first row together with the header
in truncating `'w+'` mode and appends every later row in `'a'` mode without a
header, so the output file ends as exactly one header line followed by one
data row per input row, in input order; a run over zero input rows leaves the
output file untouched. -/
theorem coord_csv_rowwise_write (geocode : String → Except String GeocodeResult)
    (r0 : String) (rest old : List String) (ip op append : String)
    (hext : extValid ip = true) :
    (convert_string_to_coordinates geocode (r0 :: rest) old ip op append).2.1
      = coordHeader ::
          (r0 :: rest).map (fun n => coordRowLine (stringToCoordRow geocode append n)) ∧
    openOutputsOf (convert_string_to_coordinates geocode (r0 :: rest) old ip op append).1
      = Effect.openOutput op "w+" :: rest.map (fun _ => Effect.openOutput op "a") := by
  constructor
  · exact coord_output_content geocode r0 rest old ip op append hext
  · have h := openOutputsOf_coordRowEffects_zero op append r0 rest
    simp only [openOutputsOf] at h ⊢
    simp [convert_string_to_coordinates, hext, List.filter_cons, List.filter_append, h]

/-- Witness for C7 (amended) on a one-row run. -/
theorem coord_csv_rowwise_write_witness :
    extValid "in.csv" = true ∧
    (convert_string_to_coordinates (fun _ => .ok ⟨1, 2, "addr"⟩) ["London"] ["stale"]
        "in.csv" "out.csv" "").2.1
      = coordHeader ::
          ["London"].map (fun n =>
            coordRowLine (stringToCoordRow (fun _ => .ok ⟨1, 2, "addr"⟩) "" n)) ∧
    openOutputsOf (convert_string_to_coordinates (fun _ => .ok ⟨1, 2, "addr"⟩) ["London"]
        ["stale"] "in.csv" "out.csv" "").1 = [Effect.openOutput "out.csv" "w+"] :=
  ⟨by decide,
   (coord_csv_rowwise_write (fun _ => .ok ⟨1, 2, "addr"⟩) "London" [] ["stale"]
      "in.csv" "out.csv" "" (by decide)).1,
   (coord_csv_rowwise_write (fun _ => .ok ⟨1, 2, "addr"⟩) "London" [] ["stale"]
      "in.csv" "out.csv" "" (by decide)).2⟩

/-- C10: the claim is false for `convert_string_to_coordinates` on a run over
zero input rows: the output file is never opened, so its pre-existing content
survives — the final content depends on what the file held before. -/
theorem coord_csv_output_depends_on_old_content :
    (convert_string_to_coordinates (fun _ => .error "e") [] ["pre-existing"]
        "a.csv" "o.csv" "").2.1 = ["pre-existing"] ∧
    (convert_string_to_coordinates (fun _ => .error "e") [] []
        "a.csv" "o.csv" "").2.1 = [] ∧
    (["pre-existing"] : List String) ≠ [] :=
  ⟨rfl, rfl, by decide⟩

/-- C10 (amended): `convert_coordinates_to_address` opens its output in
truncating `'w'` mode on every run, so the final content never depends on the
pre-existing content; `convert_string_to_coordinates` truncates on its first
row, so every run with at least one input row also destroys and fully replaces
the old content, while a zero-row run leaves the file untouched. -/
theorem output_file_truncated_when_first_row_written
    (reverse : String → Except String String) (arows : List AddrInputRow)
    (old1 old2 : List String) (ip op : String)
    (geocode : String → Except String GeocodeResult) (r0 : String)
    (rest old3 old4 : List String) (append : String)
    (hext : extValid ip = true) :
    convert_coordinates_to_address reverse arows old1 ip op
      = convert_coordinates_to_address reverse arows old2 ip op ∧
    (convert_coordinates_to_address reverse arows old1 ip op).2.1
      = addrHeader :: (arows.map (addrRow reverse)).map addrRowLine ∧
    openOutputsOf (convert_coordinates_to_address reverse arows old1 ip op).1
      = [Effect.openOutput op "w"] ∧
    (convert_string_to_coordinates geocode (r0 :: rest) old3 ip op append).2.1
      = (convert_string_to_coordinates geocode (r0 :: rest) old4 ip op append).2.1 := by
  refine ⟨?_, ?_, ?_, ?_⟩
  · simp [convert_coordinates_to_address, hext]
  · simp [convert_coordinates_to_address, hext]
  · simp only [convert_coordinates_to_address, if_pos hext, openOutputsOf]
    simp [List.filter_cons, List.filter_append, List.filter_map]
  · simp [convert_string_to_coordinates, hext, coordOutputAfter_cons]

/-- Witness for C10 (amended) on concrete runs. -/
theorem output_file_truncated_witness :
    extValid "in.csv" = true ∧
    convert_coordinates_to_address (fun _ => .ok "addr") [] ["old-a"] "in.csv" "o.csv"
      = convert_coordinates_to_address (fun _ => .ok "addr") [] ["old-b"] "in.csv" "o.csv" ∧
    (convert_string_to_coordinates (fun _ => .error "e") ["London"] ["old-a"]
        "in.csv" "o.csv" "").2.1
      = (convert_string_to_coordinates (fun _ => .error "e") ["London"] ["old-b"]
          "in.csv" "o.csv" "").2.1 :=
  ⟨by decide,
   (output_file_truncated_when_first_row_written (fun _ => .ok "addr") [] ["old-a"] ["old-b"]
      "in.csv" "o.csv" (fun _ => .error "e") "London" [] ["old-a"] ["old-b"] ""
      (by decide)).1,
   (output_file_truncated_when_first_row_written (fun _ => .ok "addr") [] ["old-a"] ["old-b"]
      "in.csv" "o.csv" (fun _ => .error "e") "London" [] ["old-a"] ["old-b"] ""
      (by decide)).2.2.2⟩

/-- C4: when the external geocoding call of a row raises, both CSV functions
still write an output row for that input — the exception message lands in
`address_exact` (resp. `output_address`) — and the loop moves on: the run ends
without an uncaught exception and the output holds one data row per input
row. -/
theorem error_rows_written_and_processing_continues
    (geocode : String → Except String GeocodeResult) (append name e : String)
    (reverse : String → Except String String) (arow : AddrInputRow) (e2 : String)
    (rows old : List String) (arows : List AddrInputRow) (ip op : String)
    (h1 : geocode (geocodeQuery name append) = .error e)
    (h2 : reverse (coordPairString arow) = .error e2)
    (hmem : name ∈ rows) (hext : extValid ip = true) :
    stringToCoordRow geocode append name = errorOutputRow name e ∧
    (errorOutputRow name e).address_exact = Cell.str e ∧
    coordRowLine (errorOutputRow name e)
      ∈ (convert_string_to_coordinates geocode rows old ip op append).2.1 ∧
    (convert_string_to_coordinates geocode rows old ip op append).2.2 = none ∧
    (convert_string_to_coordinates geocode rows old ip op append).2.1.length
      = rows.length + 1 ∧
    (addrRow reverse arow).output_address = e2 ∧
    addrRowLine (addrRow reverse arow)
      ∈ (convert_coordinates_to_address reverse (arow :: arows) old ip op).2.1 ∧
    (convert_coordinates_to_address reverse (arow :: arows) old ip op).2.2 = none := by
  have hrow : stringToCoordRow geocode append name = errorOutputRow name e := by
    simp [stringToCoordRow, h1]
  obtain ⟨r0, rest, hsplit⟩ : ∃ r0 rest, rows = r0 :: rest := by
    cases rows with
    | nil => cases hmem
    | cons a l => exact ⟨a, l, rfl⟩
  subst hsplit
  have hout := coord_output_content geocode r0 rest old ip op append hext
  refine ⟨hrow, rfl, ?_, ?_, ?_, ?_, ?_, ?_⟩
  · rw [hout, ← hrow]
    exact List.mem_cons_of_mem _ (List.mem_map_of_mem _ hmem)
  · simp [convert_string_to_coordinates, hext]
  · rw [hout]; simp
  · simp [addrRow, h2]
  · simp [convert_coordinates_to_address, hext]
  · simp [convert_coordinates_to_address, hext]

/-- Witness for C4 on concrete one-row runs whose external calls fail. -/
theorem error_rows_written_witness :
    (fun _ => (.error "boom" : Except String GeocodeResult)) (geocodeQuery "London" "")
      = .error "boom" ∧
    (fun _ => (.error "down" : Except String String))
        (coordPairString ⟨"A", "1", "2"⟩) = .error "down" ∧
    ("London" : String) ∈ (["London"] : List String) ∧
    extValid "in.csv" = true ∧
    (errorOutputRow "London" "boom").address_exact = Cell.str "boom" ∧
    (convert_string_to_coordinates (fun _ => .error "boom") ["London"] []
        "in.csv" "o.csv" "").2.2 = none ∧
    (addrRow (fun _ => .error "down") ⟨"A", "1", "2"⟩).output_address = "down" :=
  ⟨rfl, rfl, by decide, by decide,
   (error_rows_written_and_processing_continues (fun _ => .error "boom") "" "London" "boom"
      (fun _ => .error "down") ⟨"A", "1", "2"⟩ "down" ["London"] [] [] "in.csv" "o.csv"
      rfl rfl (by decide) (by decide)).2.1,
   (error_rows_written_and_processing_continues (fun _ => .error "boom") "" "London" "boom"
      (fun _ => .error "down") ⟨"A", "1", "2"⟩ "down" ["London"] [] [] "in.csv" "o.csv"
      rfl rfl (by decide) (by decide)).2.2.2.1,
   (error_rows_written_and_processing_continues (fun _ => .error "boom") "" "London" "boom"
      (fun _ => .error "down") ⟨"A", "1", "2"⟩ "down" ["London"] [] [] "in.csv" "o.csv"
      rfl rfl (by decide) (by decide)).2.2.2.2.2.1⟩

/-- C6: the node rows of a boundary response are grouped by the 3-character
geohash computed from their coordinates; two nodes with the same geohash land
in the same dissolved row, whose geometry is the convex hull of the group —
the smallest convex set containing the group's points — and
`convert_string_to_boundary` returns exactly these dissolved rows. -/
theorem same_geohash_nodes_share_convex_hull_polygon
    (elements : List Element) (e1 e2 : Element)
    (h1 : e1 ∈ boundaryNodes elements) (h2 : e2 ∈ boundaryNodes elements)
    (hh : nodeGeohash e1 = nodeGeohash e2) :
    (nodeGeohash e1).length = 3 ∧
    (∀ (overpass : String → Except String (List Element)) (country location : String),
      overpass (boundaryQuery country location) = .ok elements →
      convert_string_to_boundary overpass country location true
        = .ok (.polygons (dissolveGroups (boundaryNodes elements)))) ∧
    ∃ p, p ∈ dissolveGroups (boundaryNodes elements) ∧
      e1 ∈ p.points ∧ e2 ∈ p.points ∧
      polyGeometry p = convexHull ℝ (groupPointSet p.points) ∧
      Convex ℝ (polyGeometry p) ∧
      groupPointSet p.points ⊆ polyGeometry p ∧
      (∀ C : Set (ℝ × ℝ), Convex ℝ C → groupPointSet p.points ⊆ C →
        polyGeometry p ⊆ C) := by
  have hne : untaggedElements elements ≠ [] := by
    intro hnil
    rw [boundaryNodes, hnil] at h1
    cases h1
  have hemp : (untaggedElements elements).isEmpty = false := by
    cases h : untaggedElements elements with
    | nil => exact absurd h hne
    | cons a l => rfl
  refine ⟨geohashEncode_length _ _ _, ?_, ?_⟩
  · intro overpass country location hov
    simp only [convert_string_to_boundary, hov, selectNodes, hemp]
    rfl
  · refine ⟨mkPolyRow (boundaryNodes elements) (nodeGeohash e1), ?_, ?_, ?_, rfl,
      convex_convexHull ℝ _, subset_convexHull ℝ _,
      fun C hC hsub => convexHull_min hsub hC⟩
    · exact List.mem_map_of_mem _
        ((mem_geohashKeys _ _).mpr (List.mem_map_of_mem nodeGeohash h1))
    · exact List.mem_filter.mpr ⟨h1, by simp⟩
    · exact List.mem_filter.mpr ⟨h2, by simp [hh]⟩

/-- Witness for C6: two distinct nodes at the same coordinates. -/
theorem same_geohash_nodes_witness :
    (⟨"node", false, 1, 0, 0⟩ : Element)
      ∈ boundaryNodes [⟨"node", false, 1, 0, 0⟩, ⟨"node", false, 2, 0, 0⟩] ∧
    (⟨"node", false, 2, 0, 0⟩ : Element)
      ∈ boundaryNodes [⟨"node", false, 1, 0, 0⟩, ⟨"node", false, 2, 0, 0⟩] ∧
    nodeGeohash ⟨"node", false, 1, 0, 0⟩ = nodeGeohash ⟨"node", false, 2, 0, 0⟩ ∧
    (nodeGeohash (⟨"node", false, 1, 0, 0⟩ : Element)).length = 3 ∧
    ∃ p, p ∈ dissolveGroups
            (boundaryNodes [⟨"node", false, 1, 0, 0⟩, ⟨"node", false, 2, 0, 0⟩]) ∧
      (⟨"node", false, 1, 0, 0⟩ : Element) ∈ p.points ∧
      (⟨"node", false, 2, 0, 0⟩ : Element) ∈ p.points ∧
      polyGeometry p = convexHull ℝ (groupPointSet p.points) ∧
      Convex ℝ (polyGeometry p) ∧
      groupPointSet p.points ⊆ polyGeometry p ∧
      (∀ C : Set (ℝ × ℝ), Convex ℝ C → groupPointSet p.points ⊆ C →
        polyGeometry p ⊆ C) :=
  ⟨by decide, by decide, rfl,
   (same_geohash_nodes_share_convex_hull_polygon
      [⟨"node", false, 1, 0, 0⟩, ⟨"node", false, 2, 0, 0⟩]
      ⟨"node", false, 1, 0, 0⟩ ⟨"node", false, 2, 0, 0⟩
      (by decide) (by decide) rfl).1,
   (same_geohash_nodes_share_convex_hull_polygon
      [⟨"node", false, 1, 0, 0⟩, ⟨"node", false, 2, 0, 0⟩]
      ⟨"node", false, 1, 0, 0⟩ ⟨"node", false, 2, 0, 0⟩
      (by decide) (by decide) rfl).2.2⟩

/-- An environment whose Overpass service fails for the first location only. -/
def abortEnv : UkGeogEnv :=
  { overpass := fun q => if q = ukListQuery "Swansea" then .error "ConnectionError" else .ok [],
    boundaryRows := [], lookupRows := [], intersects := fun _ _ => true }

set_option maxRecDepth 8192 in
/-- C3: the claim is false — the Overpass query of a location (line 233) sits
before the per-location `try`, so when that external call fails for the first
of two locations the whole run aborts with the exception instead of skipping
the location and processing the second one. -/
theorem convert_list_aborts_when_overpass_fails :
    convert_list_to_uk_geog abortEnv ["Swansea", "Cardiff"] "b.geojson" "l.csv" "lsoa"
      = .error "ConnectionError" := rfl

/-- C3 (amended): everything from the node selection on is inside the
per-location `try/except`: a location whose processing fails beyond that point
is skipped with a message printed to standard output, the five accumulated
result frames are left unchanged, and the loop continues with the remaining
locations — but the Overpass query itself sits before the `try`, so a failure
of that call aborts the run. -/
theorem failed_location_skipped_and_loop_continues
    (env : UkGeogEnv) (g : String) (acc : ListAccs) (loc : String)
    (elements : List Element) (e : String) (rest : List String)
    (hok : env.overpass (ukListQuery loc) = .ok elements)
    (hfail : listTryBody env g loc (untaggedElements elements)
        { acc with trace := acc.trace ++ [.overpassQuery (ukListQuery loc)] }
      = .error e) :
    processLocation env g acc loc
      = .ok { acc with trace := acc.trace ++
          [.overpassQuery (ukListQuery loc), .printMsg (skipMsg loc)] } ∧
    convertListFold env g acc (loc :: rest)
      = convertListFold env g
          { acc with trace := acc.trace ++
            [.overpassQuery (ukListQuery loc), .printMsg (skipMsg loc)] } rest := by
  have hp : processLocation env g acc loc
      = .ok { acc with trace := acc.trace ++
          [.overpassQuery (ukListQuery loc), .printMsg (skipMsg loc)] } := by
    simp only [processLocation, hok, hfail]
    simp [List.append_assoc]
  refine ⟨hp, ?_⟩
  simp only [convertListFold, hp]

/-- A working environment whose Overpass service returns an empty record list
(the response of an unknown location), making the in-`try` node selection
fail. -/
def skipEnv : UkGeogEnv :=
  { overpass := fun _ => .ok [], boundaryRows := [], lookupRows := [],
    intersects := fun _ _ => true }

/-- Witness for C3 (amended): the unknown location is skipped with the printed
message and the loop goes on. -/
theorem failed_location_skipped_witness :
    skipEnv.overpass (ukListQuery "Atlantis") = .ok [] ∧
    listTryBody skipEnv "lsoa" "Atlantis" (untaggedElements [])
        { initListAccs "b" "l" with trace :=
            (initListAccs "b" "l").trace ++ [Effect.overpassQuery (ukListQuery "Atlantis")] }
      = .error "KeyError: type" ∧
    processLocation skipEnv "lsoa" (initListAccs "b" "l") "Atlantis"
      = .ok { initListAccs "b" "l" with trace := (initListAccs "b" "l").trace ++
          [Effect.overpassQuery (ukListQuery "Atlantis"), Effect.printMsg (skipMsg "Atlantis")] } ∧
    convertListFold skipEnv "lsoa" (initListAccs "b" "l") ["Atlantis", "Cardiff"]
      = convertListFold skipEnv "lsoa"
          { initListAccs "b" "l" with trace := (initListAccs "b" "l").trace ++
            [Effect.overpassQuery (ukListQuery "Atlantis"), Effect.printMsg (skipMsg "Atlantis")] }
          ["Cardiff"] :=
  ⟨rfl, rfl,
   (failed_location_skipped_and_loop_continues skipEnv "lsoa" (initListAccs "b" "l")
      "Atlantis" [] "KeyError: type" ["Cardiff"] rfl rfl).1,
   (failed_location_skipped_and_loop_continues skipEnv "lsoa" (initListAccs "b" "l")
      "Atlantis" [] "KeyError: type" ["Cardiff"] rfl rfl).2⟩

theorem listTryBody_ok_trace (env : UkGeogEnv) (g loc : String) (f : List Element)
    (acc acc2 : ListAccs) (h : listTryBody env g loc f acc = .ok acc2) :
    ∃ t, acc2.trace = acc.trace ++ t := by
  rcases hsel : selectNodes f with e | nodes
  · simp [listTryBody, hsel] at h
  · simp only [listTryBody, hsel] at h
    simp only [Except.ok.injEq] at h
    subst h
    repeat' split
    all_goals exact ⟨_, rfl⟩

theorem processLocation_ok_trace (env : UkGeogEnv) (g : String) (acc : ListAccs)
    (loc : String) (acc2 : ListAccs) (h : processLocation env g acc loc = .ok acc2) :
    ∃ t, acc2.trace = acc.trace ++ (Effect.overpassQuery (ukListQuery loc) :: t) := by
  rcases hov : env.overpass (ukListQuery loc) with e | elements
  · simp [processLocation, hov] at h
  · rcases hbody : listTryBody env g loc (untaggedElements elements)
        { acc with trace := acc.trace ++ [Effect.overpassQuery (ukListQuery loc)] }
      with e | acc3
    · simp only [processLocation, hov, hbody, Except.ok.injEq] at h
      subst h
      exact ⟨[Effect.printMsg (skipMsg loc)], by simp⟩
    · simp only [processLocation, hov, hbody, Except.ok.injEq] at h
      subst h
      obtain ⟨t, ht⟩ := listTryBody_ok_trace _ _ _ _ _ _ hbody
      refine ⟨t, ?_⟩
      rw [ht]
      simp

theorem convertListFold_trace (env : UkGeogEnv) (g : String) (locs : List String)
    (acc accF : ListAccs) (h : convertListFold env g acc locs = .ok accF) :
    ∃ t, accF.trace = acc.trace ++ t := by
  induction locs generalizing acc with
  | nil =>
    simp only [convertListFold, Except.ok.injEq] at h
    subst h
    exact ⟨[], by simp⟩
  | cons loc rest ih =>
    rcases hp : processLocation env g acc loc with e | acc2
    · simp [convertListFold, hp] at h
    · simp only [convertListFold, hp] at h
      obtain ⟨t1, ht1⟩ := processLocation_ok_trace _ _ _ _ _ hp
      obtain ⟨t2, ht2⟩ := ih _ h
      refine ⟨Effect.overpassQuery (ukListQuery loc) :: t1 ++ t2, ?_⟩
      rw [ht2, ht1]
      simp

theorem convertListFold_query_mem (env : UkGeogEnv) (g : String) (locs : List String)
    (acc accF : ListAccs) (h : convertListFold env g acc locs = .ok accF)
    (loc : String) (hmem : loc ∈ locs) :
    Effect.overpassQuery (ukListQuery loc) ∈ accF.trace := by
  induction locs generalizing acc with
  | nil => cases hmem
  | cons l rest ih =>
    rcases hp : processLocation env g acc l with e | acc2
    · simp [convertListFold, hp] at h
    · simp only [convertListFold, hp] at h
      rcases List.mem_cons.mp hmem with heq | hmem2
      · subst heq
        obtain ⟨t1, ht1⟩ := processLocation_ok_trace _ _ _ _ _ hp
        obtain ⟨t2, ht2⟩ := convertListFold_trace _ _ _ _ _ h
        rw [ht2, ht1]
        simp
      · exact ih acc2 h hmem2

/-- C8: for an `output_geog` value outside the five recognized options, both
UK-geography functions still do all of their work — the file reads, one
Overpass query per location, the clustering and joins — and then hand back
`None` from the fall-through of their final `if/elif` chains instead of
raising: the trace of `convert_string_to_uk_geog` is identical to that of a
recognized-option run, and every location of a completed
`convert_list_to_uk_geog` run has its query on record while the returned
value is `None`. -/
theorem unrecognized_output_geog_all_work_then_none
    (g : String) (hg : g ∉ ["lsoa", "msoa", "la", "overview", "raw"])
    (env : UkGeogEnv) (locations : List String) (bp lp : String)
    (accF : ListAccs) (ret : Option ListUkGeogReturn)
    (hrun : convert_list_to_uk_geog env locations bp lp g = .ok (accF, ret)) :
    ret = none ∧
    Effect.readFile bp ∈ accF.trace ∧
    Effect.readCsv lp ∈ accF.trace ∧
    (∀ loc ∈ locations, Effect.overpassQuery (ukListQuery loc) ∈ accF.trace) ∧
    (∀ l2 bp2 lp2 : String,
      (convert_string_to_uk_geog env l2 bp2 lp2 g).1
        = (convert_string_to_uk_geog env l2 bp2 lp2 "lsoa").1 ∧
      stringRunReturn (convert_string_to_uk_geog env l2 bp2 lp2 g) = none) := by
  simp only [List.mem_cons, List.not_mem_nil, or_false, not_or] at hg
  obtain ⟨hg1, hg2, hg3, hg4, hg5⟩ := hg
  rcases hfold : convertListFold env g (initListAccs bp lp) locations with e | accA
  · simp [convert_list_to_uk_geog, hfold] at hrun
  · simp only [convert_list_to_uk_geog, hfold, Except.ok.injEq, Prod.mk.injEq] at hrun
    obtain ⟨haccs, hret⟩ := hrun
    subst haccs
    obtain ⟨t, ht⟩ := convertListFold_trace _ _ _ _ _ hfold
    refine ⟨?_, ?_, ?_, ?_, ?_⟩
    · rw [← hret]
      simp [listDispatch, hg1, hg2, hg3, hg4, hg5]
    · rw [ht]
      simp [initListAccs]
    · rw [ht]
      simp [initListAccs]
    · intro loc hmem
      exact convertListFold_query_mem _ _ _ _ _ hfold loc hmem
    · intro l2 bp2 lp2
      rcases hov : env.overpass (ukStringQuery l2) with e | elements
      · exact ⟨by simp [convert_string_to_uk_geog, hov],
          by simp [convert_string_to_uk_geog, hov, stringRunReturn]⟩
      · rcases hsel : selectNodes (untaggedElements elements) with e | nodes
        · exact ⟨by simp [convert_string_to_uk_geog, hov, hsel],
            by simp [convert_string_to_uk_geog, hov, hsel, stringRunReturn]⟩
        · refine ⟨by simp [convert_string_to_uk_geog, hov, hsel], ?_⟩
          simp only [convert_string_to_uk_geog, hov, hsel, stringRunReturn]
          simp [stringUkDispatch, hg1, hg2, hg3, hg4, hg5]

/-- The final accumulated state of the one-location unrecognized-option run
used as witness for C8. -/
def unrecAcc : ListAccs :=
  { lsoa := [], msoa := [], la := [], overview := [], raw := [],
    trace := [Effect.printMsg "Reading in LSOA boundary file... This will take a while...",
              Effect.readFile "b.geojson", Effect.readCsv "l.csv",
              Effect.overpassQuery (ukListQuery "Ambridge"),
              Effect.printMsg (skipMsg "Ambridge")] }

/-- Witness for C8 on a concrete completed run with `output_geog = "xyz"`. -/
theorem unrecognized_output_geog_witness :
    ("xyz" : String) ∉ (["lsoa", "msoa", "la", "overview", "raw"] : List String) ∧
    convert_list_to_uk_geog skipEnv ["Ambridge"] "b.geojson" "l.csv" "xyz"
      = .ok (unrecAcc, none) ∧
    Effect.readFile "b.geojson" ∈ unrecAcc.trace ∧
    Effect.overpassQuery (ukListQuery "Ambridge") ∈ unrecAcc.trace ∧
    stringRunReturn (convert_string_to_uk_geog skipEnv "London" "b.geojson" "l.csv" "xyz")
      = none := by
  refine ⟨by decide, rfl, ?_, ?_, ?_⟩
  · exact (unrecognized_output_geog_all_work_then_none "xyz" (by decide) skipEnv
      ["Ambridge"] "b.geojson" "l.csv" unrecAcc none rfl).2.1
  · exact (unrecognized_output_geog_all_work_then_none "xyz" (by decide) skipEnv
      ["Ambridge"] "b.geojson" "l.csv" unrecAcc none rfl).2.2.2.1 "Ambridge" (by decide)
  · exact ((unrecognized_output_geog_all_work_then_none "xyz" (by decide) skipEnv
      ["Ambridge"] "b.geojson" "l.csv" unrecAcc none rfl).2.2.2.2 "London"
      "b.geojson" "l.csv").2

end Geographic
